import Mathlib

/-!
Shallow embedding of the blog-post HTTP service in `src/Midterm/server.js`
(Express + Mongoose over MongoDB).

The document store is modelled as a list of `Post` documents. Each request
handler becomes a pure function from (store state, request data) to
(HTTP response data, new store state). MongoDB's query, update and
aggregation primitives used by the handlers (`find` with filter/sort/limit,
`findByIdAndUpdate` with `$inc` / `$push` and `new: true`, and the two
`aggregate` pipelines) are embedded directly as list operations.
-/

namespace BlogApi

/-- Entry of the `comments` array in `postSchema` (lines 41-48 of
`server.js`). Mongoose strips `undefined` fields before storing, so the
caller-supplied `text` and `user` fields may be absent. The `date` default
is irrelevant to the claims and omitted. -/
structure Comment where
  text : Option String
  user : Option String
deriving DecidableEq

/-- A blog-post document as shaped by `postSchema` (lines 21-57 of
`server.js`). `id` stands for MongoDB's `_id`; `likes` is a JS number,
modelled as `Int` (the schema has no lower bound on it); `createdAt` is a
timestamp modelled as `Int`. -/
structure Post where
  id : Nat
  title : String
  content : String
  author : String
  tags : List String
  likes : Int
  comments : List Comment
  published : Bool
  createdAt : Int
deriving DecidableEq

/-- The store: one collection of `Post` documents. -/
abbrev DB := List Post

/-! ### JS `parseInt`

`server.js` line 99 runs `parseInt(limit)` on the raw query parameter.
JS `parseInt` skips leading whitespace, takes an optional sign, honours a
`0x`/`0X` hex marker, reads the longest prefix of digits in the chosen
radix, and yields `NaN` when no digit is read. `none` stands for `NaN`. -/

/-- Value of one digit character in radix 16, or `none`, computed on the
code point: 48-57 are the decimal digits, 97-102 and 65-70 the two cases
of hex letters. -/
def hexDigitVal (c : Char) : Option Nat :=
  let n := c.toNat
  if 48 ≤ n ∧ n ≤ 57 then some (n - 48)
  else if 97 ≤ n ∧ n ≤ 102 then some (n - 87)
  else if 65 ≤ n ∧ n ≤ 70 then some (n - 55)
  else none

/-- Value of one digit character in radix `base` (10 or 16), or `none`: a
radix-10 digit is exactly a radix-16 digit whose value is below 10. -/
def digitValB (base : Nat) (c : Char) : Option Nat :=
  match hexDigitVal c with
  | some d => if d < base then some d else none
  | none => none

/-- Accumulate the longest digit prefix; `none` when no digit was read. -/
def parseDigitsAux (base : Nat) (acc : Nat) (found : Bool) : List Char → Option Nat
  | [] => if found then some acc else none
  | c :: rest =>
    match digitValB base c with
    | some d => parseDigitsAux base (acc * base + d) true rest
    | none => if found then some acc else none

/-- JS `parseInt` on a string, radix unspecified: `none` models `NaN`. -/
def parseIntJS (s : String) : Option Int :=
  let cs := s.toList.dropWhile Char.isWhitespace
  let signAndRest : Int × List Char :=
    match cs with
    | '-' :: rest => (-1, rest)
    | '+' :: rest => (1, rest)
    | _ => (1, cs)
  let baseAndRest : Nat × List Char :=
    match signAndRest.2 with
    | '0' :: 'x' :: rest => (16, rest)
    | '0' :: 'X' :: rest => (16, rest)
    | _ => (10, signAndRest.2)
  (parseDigitsAux baseAndRest.1 0 false baseAndRest.2).map
    (fun n => signAndRest.1 * (n : Int))

/-! ### Query builder for the list endpoint (`GET /api/posts`, lines 90-112)

The handler destructures `{ tag, published, limit = 10 }` from `req.query`,
builds a filter with `if (tag) query.tags = tag` and
`if (published !== undefined) query.published = published === 'true'`,
then runs `Post.find(query).limit(parseInt(limit)).sort({ createdAt: -1 })`. -/

/-- The raw optional query parameters of the list endpoint; Express yields
strings (an empty parameter like `?tag=` yields `""`, not absence). -/
structure ListQuery where
  tag : Option String
  published : Option String
  limit : Option String
deriving DecidableEq

/-- The filter object the handler builds: `tags := some t` requires the
`tags` array to contain `t`; `published := some b` requires equality. -/
structure ListFilter where
  tags : Option String
  published : Option Bool
deriving DecidableEq

/-- `if (tag) query.tags = tag` — a JS string is truthy iff non-empty, so an
empty `tag` value adds no filter. `if (published !== undefined)
query.published = published === 'true'` — any present value is compared to
the literal text `"true"`. -/
def buildFilter (q : ListQuery) : ListFilter :=
  { tags :=
      match q.tag with
      | some t => if t ≠ "" then some t else none
      | none => none
    published := q.published.map (fun s => s == "true") }

/-- `const { limit = 10 } = req.query` followed by `parseInt(limit)`: the
default `10` only replaces an absent (`undefined`) parameter, after which
`parseInt` runs on it (`parseInt(10)` is `10`). A present but unparsable
value yields `NaN` (`none`). -/
def buildLimit (limitParam : Option String) : Option Int :=
  parseIntJS (limitParam.getD "10")

/-- MongoDB match semantics of the filter object: `{ tags: t }` on an array
field matches documents whose array contains `t`; `{ published: b }` is
equality. An absent key constrains nothing. -/
def matchesFilter (f : ListFilter) (p : Post) : Bool :=
  (match f.tags with
   | some t => p.tags.contains t
   | none => true) &&
  (match f.published with
   | some b => p.published == b
   | none => true)

/-- Ordering used by `.sort({ createdAt: -1 })`: newest first. -/
def createdAtGe (a b : Post) : Prop := b.createdAt ≤ a.createdAt

instance : DecidableRel createdAtGe := fun a b => Int.decLe b.createdAt a.createdAt

instance : IsTotal Post createdAtGe :=
  ⟨fun a b => Int.le_total b.createdAt a.createdAt⟩

instance : IsTrans Post createdAtGe :=
  ⟨fun _ _ _ hab hbc => le_trans hbc hab⟩

/-- The store's `limit(n)` directive on an already sorted result: `0` means
no limit, a negative `n` behaves as `|n|` (single batch). `none` models the
`NaN` produced by an unparsable parameter: what the store does with a `NaN`
limit is driver/server dependent; it is modelled as unconstrained. -/
def applyLimit (lim : Option Int) (posts : List Post) : List Post :=
  match lim with
  | some n => if n = 0 then posts else posts.take n.natAbs
  | none => posts

/-- `Post.find(query).limit(parseInt(limit)).sort({ createdAt: -1 })`:
filter, sort newest-first, then cut to the limit. -/
def listPosts (q : ListQuery) (db : DB) : List Post :=
  applyLimit (buildLimit q.limit)
    (List.insertionSort createdAtGe (db.filter (matchesFilter (buildFilter q))))

/-! ### Store primitives for id-addressed updates -/

/-- `findById` semantics: the document with the given id, if any. -/
def findPost (db : DB) (i : Nat) : Option Post :=
  db.find? (fun p => p.id == i)

/-- One atomic id-addressed update: rewrite the document(s) carrying the id
in place, leaving every other document untouched. -/
def updatePost (db : DB) (i : Nat) (f : Post → Post) : DB :=
  db.map (fun p => if p.id == i then f p else p)

/-! ### Like endpoint (`PATCH /api/posts/:id/like`, lines 115-142) -/

/-- Response of the like endpoint: HTTP status plus the `likes` value the
success body carries — `data: { likes: post.likes }` holds nothing else. -/
structure LikeResponse where
  status : Nat
  likes : Option Int
deriving DecidableEq

/-- `findByIdAndUpdate(id, { $inc: { likes: 1 } }, { new: true })`: a `null`
result yields 404 and no write; otherwise 200 with the post-increment
value read off the returned (updated) document. -/
def likeHandler (db : DB) (i : Nat) : LikeResponse × DB :=
  match findPost db i with
  | none => (⟨404, none⟩, db)
  | some p =>
    (⟨200, some (p.likes + 1)⟩,
      updatePost db i (fun q => { q with likes := q.likes + 1 }))

/-! ### Comment endpoint (`POST /api/posts/:id/comments`, lines 145-169) -/

/-- The destructured `{ text, user }` of the comment request body; either
field may be absent (`undefined`). -/
structure CommentBody where
  text : Option String
  user : Option String
deriving DecidableEq

/-- Response of the comment endpoint: status plus the returned entry. -/
structure CommentResponse where
  status : Nat
  data : Option Comment
deriving DecidableEq

/-- `findByIdAndUpdate(id, { $push: { comments: { text, user } } },
{ new: true })`, after which the handler reads
`post.comments[post.comments.length - 1]` without a null check: on a
missing id `post` is `null`, the member access throws, and the catch block
answers 500. No body validation of any kind is performed. -/
def commentHandler (db : DB) (i : Nat) (b : CommentBody) : CommentResponse × DB :=
  match findPost db i with
  | none => (⟨500, none⟩, db)
  | some p =>
    let c : Comment := ⟨b.text, b.user⟩
    (⟨200, (p.comments ++ [c]).getLast?⟩,
      updatePost db i (fun q => { q with comments := q.comments ++ [c] }))

/-! ### Create endpoint (`POST /api/posts`, lines 71-87) -/

/-- The JSON body of `POST /api/posts` after mongoose casting: each schema
path is present or absent; unknown keys are dropped by the schema. -/
structure CreateBody where
  title : Option String
  content : Option String
  author : Option String
  tags : Option (List String)
  likes : Option Int
  comments : Option (List Comment)
  published : Option Bool
deriving DecidableEq

/-- JS `String.prototype.trim` (the mongoose `trim` setter): strip leading
and trailing whitespace. -/
def trimStr (s : String) : String :=
  ⟨((s.toList.dropWhile Char.isWhitespace).reverse.dropWhile Char.isWhitespace).reverse⟩

/-- Mongoose's `required` check for a string path: present and non-empty. -/
def requiredOk (s : Option String) : Bool :=
  match s with
  | some t => t ≠ ""
  | none => false

/-- `new Post(req.body)` followed by `save()`: the `trim` setter runs on
`title`; validation rejects a missing or empty `title`/`content`/`author`
and a trimmed `title` over 100 characters (`maxlength`); defaults fill
`tags := []`, `likes := 0`, `comments := []`, `published := false`; the
store assigns the id and the `createdAt` default is the insertion time.
A client-supplied value for `tags`/`likes`/`comments`/`published` is kept
as-is — the schema puts no further constraint on them. -/
def createPost (newId : Nat) (now : Int) (b : CreateBody) : Except String Post :=
  let title := b.title.map trimStr
  if ¬ requiredOk title then .error "Path `title` is required."
  else if ¬ requiredOk b.content then .error "Path `content` is required."
  else if ¬ requiredOk b.author then .error "Path `author` is required."
  else if 100 < (title.getD "").length then
    .error "title is longer than the maximum allowed length (100)."
  else .ok
    { id := newId
      title := title.getD ""
      content := b.content.getD ""
      author := b.author.getD ""
      tags := b.tags.getD []
      likes := b.likes.getD 0
      comments := b.comments.getD []
      published := b.published.getD false
      createdAt := now }

/-- Response of the create endpoint: 201 with the stored document, or 400
with the validation message. -/
structure CreateResponse where
  status : Nat
  data : Option Post
deriving DecidableEq

/-- The create handler: `save()` success answers 201 with the document, a
validation error is caught and answered as 400. -/
def createHandler (newId : Nat) (now : Int) (b : CreateBody) : CreateResponse :=
  match createPost newId now b with
  | .ok p => ⟨201, some p⟩
  | .error _ => ⟨400, none⟩

/-- State change of a create request: a valid body inserts its document. -/
def createOpDb (db : DB) (newId : Nat) (now : Int) (b : CreateBody) : DB :=
  match createPost newId now b with
  | .ok p => db ++ [p]
  | .error _ => db

/-! ### Request traces: every state-changing operation of the API -/

/-- The three operations that write to the store. -/
inductive Op where
  | create (newId : Nat) (now : Int) (b : CreateBody)
  | like (i : Nat)
  | comment (i : Nat) (b : CommentBody)

/-- State change of one operation. -/
def applyOp (db : DB) : Op → DB
  | .create newId now b => createOpDb db newId now b
  | .like i => (likeHandler db i).2
  | .comment i b => (commentHandler db i b).2

/-- Run a request trace against the store. -/
def runOps (db : DB) (ops : List Op) : DB := ops.foldl applyOp db

/-! ### Search endpoint (`GET /api/posts/search`, lines 172-216) -/

/-- Lower-casing, used for the `i` (case-insensitive) regex option. -/
def lowerStr (s : String) : String := ⟨s.toList.map Char.toLower⟩

/-- Substring containment on character lists (the spec wording "contains
`q` as a substring"). -/
def substrB (pat : List Char) : List Char → Bool
  | [] => pat.isEmpty
  | c :: rest => pat.isPrefixOf (c :: rest) || substrB pat rest

/-- One pattern character matched against one subject character, with the
`i` option folded in: `.` is the PCRE any-character metacharacter (it does
not match a newline); every other character matches itself up to case. -/
def atomMatches (pc c : Char) : Bool :=
  if pc = '.' then c != '\n' else pc.toLower == c.toLower

/-- The pattern matched against the front of the subject. -/
def findAt : List Char → List Char → Bool
  | [], _ => true
  | _ :: _, [] => false
  | pc :: ps, c :: cs => atomMatches pc c && findAt ps cs

/-- Unanchored regex search: the pattern matches at some position of the
subject. Together with `atomMatches` this interprets the PCRE fragment in
which the pattern is a sequence of literal characters and `.`
metacharacters; the embedding is exact on query strings free of the other
regex metacharacters (see `isRegexMeta`), and theorems about literal
containment carry that hypothesis explicitly. -/
def regexFound (pat : List Char) : List Char → Bool
  | [] => findAt pat []
  | c :: cs => findAt pat (c :: cs) || regexFound pat cs

/-- The `$match` stage: `$or` of `{ title: { $regex: q, $options: 'i' } }`
and the same on `content` — the raw query text is applied as a
case-insensitive, unanchored regex pattern over title or content. -/
def matchesSearch (q : String) (p : Post) : Bool :=
  regexFound q.toList p.title.toList || regexFound q.toList p.content.toList

/-- The PCRE metacharacters (outside character classes); 123 and 125 are
the code points of the opening and closing curly brace. A query free of
these is matched purely literally by the regex engine. -/
def isRegexMeta (c : Char) : Bool :=
  c == '\\' || c == '^' || c == '$' || c == '.' || c == '|' || c == '?' ||
    c == '*' || c == '+' || c == '(' || c == ')' || c == '[' || c == ']' ||
    c.toNat == 123 || c.toNat == 125

/-- A query string containing no regex metacharacter at all. -/
def plainQuery (q : String) : Bool := q.toList.all (fun c => !isRegexMeta c)

/-- Case-insensitive literal substring containment of the query in a
field — the claim's wording "title or content case-insensitively contains
`q` as a substring". -/
def containsCI (hay q : String) : Bool :=
  substrB (lowerStr q).toList (lowerStr hay).toList

/-- A document after the `$addFields` stage: the post plus `engagement`. -/
structure SearchHit where
  post : Post
  engagement : Int
deriving DecidableEq

/-- `$addFields: { engagement: { $add: ["$likes", { $size: "$comments" }] } }`. -/
def addEngagement (p : Post) : SearchHit :=
  ⟨p, p.likes + (p.comments.length : Int)⟩

/-- Ordering of `$sort: { engagement: -1 }`: most engaging first. -/
def engagementGe (a b : SearchHit) : Prop := b.engagement ≤ a.engagement

instance : DecidableRel engagementGe := fun a b => Int.decLe b.engagement a.engagement

instance : IsTotal SearchHit engagementGe :=
  ⟨fun a b => Int.le_total b.engagement a.engagement⟩

instance : IsTrans SearchHit engagementGe :=
  ⟨fun _ _ _ hab hbc => le_trans hbc hab⟩

/-- The four-stage aggregation of the search endpoint: `$match`,
`$addFields`, `$sort: { engagement: -1 }`, `$limit: 5`. -/
def searchPipeline (q : String) (db : DB) : List SearchHit :=
  (List.insertionSort engagementGe ((db.filter (matchesSearch q)).map addEngagement)).take 5

/-! ### Stats endpoint (`GET /api/posts/stats`, lines 220-244) -/

/-- The single `$group` output record. -/
structure StatsRecord where
  totalPosts : Nat
  totalLikes : Int
  avgLikes : ℚ
  publishedCount : Nat
deriving DecidableEq

/-- The `$group` stage with `_id: null` folded over every document:
`totalPosts` is `$sum: 1`, `totalLikes` is `$sum: "$likes"`, `avgLikes` is
`$avg: "$likes"`, and `publishedCount` is
`$sum: { $cond: ["$published", 1, 0] }`. -/
def statsFold (db : DB) : StatsRecord :=
  { totalPosts := db.foldl (fun acc _ => acc + 1) 0
    totalLikes := db.foldl (fun acc p => acc + p.likes) 0
    avgLikes :=
      db.foldl (fun acc p => acc + (p.likes : ℚ)) 0 /
        db.foldl (fun acc _ => acc + 1) (0 : ℚ)
    publishedCount := db.foldl (fun acc p => acc + (if p.published then 1 else 0)) 0 }

/-- `$group` over an empty collection emits no row at all. -/
def statsAggregate (db : DB) : Option StatsRecord :=
  match db with
  | [] => none
  | _ :: _ => some (statsFold db)

/-- The stats response payload: `data: stats[0] || {}`. -/
inductive StatsData where
  | record (r : StatsRecord)
  | emptyObj
deriving DecidableEq

/-- The stats handler: 200 with the aggregate record, or 200 with `{}`
when the pipeline produced no row (empty collection). -/
def statsHandler (db : DB) : Nat × StatsData :=
  match statsAggregate db with
  | some r => (200, .record r)
  | none => (200, .emptyObj)

/-! ### Concrete documents and requests used to instantiate the theorems -/

/-- A post whose `tags` do not contain the empty string. -/
def tagDemoPost : Post := ⟨1, "t", "c", "a", ["x"], 0, [], false, 0⟩

/-- A published post tagged `x`. -/
def listDemoPost : Post := ⟨1, "t", "c", "a", ["x"], 0, [], true, 0⟩

/-- `P1` of the search-ranking scenario: matches `"a"`, 0 likes, no
comments, engagement 0. -/
def searchDemoP1 : Post := ⟨1, "alpha post", "text", "ann", [], 0, [], false, 0⟩

/-- `P2` of the search-ranking scenario: matches `"a"`, 5 likes, one
comment, engagement 6. -/
def searchDemoP2 : Post := ⟨2, "another", "text", "bob", [], 5, [⟨some "nice", some "carol"⟩], false, 1⟩

/-- A post whose title and content contain no period character. -/
def dotDemoPost : Post := ⟨1, "abc", "xyz", "ann", [], 0, [], false, 0⟩

/-- Three posts with likes 2, 4 and 6, two of them published. -/
def statsDemo : DB :=
  [⟨1, "t1", "c", "a", [], 2, [], true, 0⟩,
   ⟨2, "t2", "c", "a", [], 4, [], false, 1⟩,
   ⟨3, "t3", "c", "a", [], 6, [], true, 2⟩]

/-- An existing post with 41 likes, target of the Like calls. -/
def likeDemoPost : Post := ⟨1, "t", "c", "a", [], 41, [], false, 0⟩

/-- An existing post with one comment, target of the Comment calls. -/
def commentDemoPost : Post := ⟨1, "t", "c", "a", [], 0, [⟨some "old", some "dana"⟩], false, 0⟩

/-- A create body that supplies a negative `likes` value. -/
def negLikesBody : CreateBody := ⟨some "t", some "c", some "a", none, some (-5), none, none⟩

/-- A two-request trace: one valid create (no `likes` supplied), one Like. -/
def demoTrace : List Op :=
  [Op.create 1 0 ⟨some "t", some "c", some "a", none, none, none, none⟩, Op.like 1]

/-- The single post the trace `demoTrace` leaves in the store. -/
def demoTracePost : Post := ⟨1, "t", "c", "a", [], 1, [], false, 0⟩

/-! ### Helper lemmas -/

theorem applyLimit_sublist (lim : Option Int) (l : List Post) :
    List.Sublist (applyLimit lim l) l := by
  unfold applyLimit
  cases lim with
  | none => exact List.Sublist.refl l
  | some n =>
    by_cases h : n = 0
    · simp [h]
    · simp only [h, if_false]
      exact List.take_sublist _ l

theorem mem_applyLimit {lim : Option Int} {l : List Post} {p : Post}
    (h : p ∈ applyLimit lim l) : p ∈ l :=
  (applyLimit_sublist lim l).subset h

theorem findPost_updatePost (db : DB) (i : Nat) (f : Post → Post)
    (hf : ∀ p, (f p).id = p.id) :
    findPost (updatePost db i f) i = (findPost db i).map f := by
  induction db with
  | nil => rfl
  | cons p rest ih =>
    by_cases h : p.id = i
    · simp [findPost, updatePost, List.find?, h, hf]
    · have hb : (p.id == i) = false := by simp [h]
      simpa [findPost, updatePost, List.find?, hb] using ih

theorem mem_updatePost {db : DB} {i : Nat} {f : Post → Post} {p' : Post}
    (h : p' ∈ updatePost db i f) :
    ∃ p ∈ db, p' = f p ∨ p' = p := by
  rcases List.mem_map.mp h with ⟨p, hp, he⟩
  refine ⟨p, hp, ?_⟩
  by_cases hid : (p.id == i) = true
  · left
    simp only [hid, if_true] at he
    exact he.symm
  · right
    simp only [hid, if_false] at he
    exact he.symm

theorem createPost_ok (newId : Nat) (now : Int) (b : CreateBody) (p : Post)
    (h : createPost newId now b = .ok p) :
    p = { id := newId
          title := (b.title.map trimStr).getD ""
          content := b.content.getD ""
          author := b.author.getD ""
          tags := b.tags.getD []
          likes := b.likes.getD 0
          comments := b.comments.getD []
          published := b.published.getD false
          createdAt := now } := by
  simp only [createPost] at h
  split at h
  · exact absurd h (by simp)
  · split at h
    · exact absurd h (by simp)
    · split at h
      · exact absurd h (by simp)
      · split at h
        · exact absurd h (by simp)
        · exact (Except.ok.inj h).symm

theorem createPost_error_of_missing (newId : Nat) (now : Int) (b : CreateBody)
    (h : b.title = none ∨ b.content = none ∨ b.author = none) :
    ∃ msg, createPost newId now b = .error msg := by
  have hnone : requiredOk none = false := rfl
  rcases h with h | h | h
  · exact ⟨"Path `title` is required.", by simp [createPost, h, hnone]⟩
  · by_cases hT : requiredOk (b.title.map trimStr)
    · exact ⟨"Path `content` is required.", by simp [createPost, hT, h, hnone]⟩
    · exact ⟨"Path `title` is required.", by simp [createPost, hT]⟩
  · by_cases hT : requiredOk (b.title.map trimStr)
    · by_cases hC : requiredOk b.content
      · exact ⟨"Path `author` is required.", by simp [createPost, hT, hC, h, hnone]⟩
      · exact ⟨"Path `content` is required.", by simp [createPost, hT, hC]⟩
    · exact ⟨"Path `title` is required.", by simp [createPost, hT]⟩

/-- Every post of the store after one write operation either was already
there, or was inserted by a create, or is an old post with its `likes`
bumped by one, or is an old post with one comment appended. -/
theorem likes_of_applyOp {db : DB} {op : Op} {p' : Post} (h : p' ∈ applyOp db op) :
    (∃ p ∈ db, p'.likes = p.likes ∨ p'.likes = p.likes + 1) ∨
    (∃ nid now b, op = Op.create nid now b ∧ p'.likes = b.likes.getD 0) := by
  cases op with
  | create nid now b =>
    simp only [applyOp, createOpDb] at h
    rcases hc : createPost nid now b with msg | q
    · rw [hc] at h
      exact Or.inl ⟨p', h, Or.inl rfl⟩
    · rw [hc] at h
      rcases List.mem_append.mp h with hm | hm
      · exact Or.inl ⟨p', hm, Or.inl rfl⟩
      · have : p' = q := by simpa using hm
        subst this
        refine Or.inr ⟨nid, now, b, rfl, ?_⟩
        rw [createPost_ok nid now b p' hc]
  | like i =>
    simp only [applyOp, likeHandler] at h
    rcases hf : findPost db i with _ | q
    · rw [hf] at h
      exact Or.inl ⟨p', h, Or.inl rfl⟩
    · rw [hf] at h
      simp only at h
      rcases mem_updatePost h with ⟨p, hp, hpe | hpe⟩
      · exact Or.inl ⟨p, hp, Or.inr (by rw [hpe])⟩
      · exact Or.inl ⟨p, hp, Or.inl (by rw [hpe])⟩
  | comment i b =>
    simp only [applyOp, commentHandler] at h
    rcases hf : findPost db i with _ | q
    · rw [hf] at h
      exact Or.inl ⟨p', h, Or.inl rfl⟩
    · rw [hf] at h
      simp only at h
      rcases mem_updatePost h with ⟨p, hp, hpe | hpe⟩
      · exact Or.inl ⟨p, hp, Or.inl (by rw [hpe])⟩
      · exact Or.inl ⟨p, hp, Or.inl (by rw [hpe])⟩

theorem findAt_no_dot (pat : List Char) (hay : List Char) (h : ∀ c ∈ pat, c ≠ '.') :
    findAt pat hay = (pat.map Char.toLower).isPrefixOf (hay.map Char.toLower) := by
  induction pat generalizing hay with
  | nil => cases hay <;> rfl
  | cons pc ps ih =>
    cases hay with
    | nil => rfl
    | cons c cs =>
      have hpc : pc ≠ '.' := h pc (List.mem_cons_self _ _)
      simp [findAt, atomMatches, hpc, List.isPrefixOf,
        ih cs (fun x hx => h x (List.mem_cons_of_mem _ hx))]

theorem regexFound_no_dot (pat : List Char) (hay : List Char) (h : ∀ c ∈ pat, c ≠ '.') :
    regexFound pat hay = substrB (pat.map Char.toLower) (hay.map Char.toLower) := by
  induction hay with
  | nil =>
    cases pat with
    | nil => rfl
    | cons pc ps => rfl
  | cons c cs ih =>
    simp only [regexFound, List.map_cons, substrB, ih]
    rw [findAt_no_dot pat (c :: cs) h]
    simp

theorem no_dot_of_plain {q : String} (h : plainQuery q = true) :
    ∀ c ∈ q.toList, c ≠ '.' := by
  intro c hc hEq
  subst hEq
  have hall := (List.all_eq_true.mp h) '.' hc
  exact absurd hall (by decide)

theorem foldl_count_nat (l : List Post) (n : Nat) :
    l.foldl (fun acc _ => acc + 1) n = n + l.length := by
  induction l generalizing n with
  | nil => simp
  | cons p t ih => simp [List.foldl_cons, ih]; omega

theorem foldl_count_rat (l : List Post) (x : ℚ) :
    l.foldl (fun acc _ => acc + 1) x = x + (l.length : ℚ) := by
  induction l generalizing x with
  | nil => simp
  | cons p t ih =>
    simp only [List.foldl_cons, List.length_cons, ih]
    push_cast
    ring

theorem foldl_likes_int (l : List Post) (x : Int) :
    l.foldl (fun acc p => acc + p.likes) x = x + (l.map Post.likes).sum := by
  induction l generalizing x with
  | nil => simp
  | cons p t ih =>
    simp only [List.foldl_cons, List.map_cons, List.sum_cons, ih]
    ring

theorem foldl_likes_rat (l : List Post) (x : ℚ) :
    l.foldl (fun acc p => acc + (p.likes : ℚ)) x = x + (((l.map Post.likes).sum : Int) : ℚ) := by
  induction l generalizing x with
  | nil => simp
  | cons p t ih =>
    simp only [List.foldl_cons, List.map_cons, List.sum_cons, ih]
    push_cast
    ring

theorem foldl_published_count (l : List Post) (n : Nat) :
    l.foldl (fun acc p => acc + (if p.published then 1 else 0)) n =
      n + (l.filter (fun p => p.published)).length := by
  induction l generalizing n with
  | nil => simp
  | cons p t ih =>
    by_cases hp : p.published
    · simp [List.foldl_cons, List.filter_cons, hp, ih]
      omega
    · simp [List.foldl_cons, List.filter_cons, hp, ih]

/-! ### Claim theorems -/

/-- C1 (counterexample): with `limit=abc` present but unparsable, the query
builder produces `NaN` (`none`), not the default 10 the claim states is
used for unparsable input. -/
theorem limit_unparsable_counterexample :
    buildLimit (some "abc") = none ∧ ¬ buildLimit (some "abc") = some 10 := by
  decide

/-- C1 (amended): the list query builder parses `limit` with JS `parseInt`;
the default 10 replaces the parameter exactly when it is absent; a present
but unparsable value parses to NaN (`none`), which is handed to the store
as the limit directive instead of the default; the builder itself raises
no error on any input. -/
theorem limit_parse_spec :
    buildLimit none = some 10 ∧
    (∀ s, buildLimit (some s) = parseIntJS s) ∧
    buildLimit (some "7") = some 7 ∧
    buildLimit (some "abc") = none :=
  ⟨by decide, fun _ => rfl, by decide, by decide⟩

/-- C4: a Like call on an existing post with `likes = n` answers 200 with a
body carrying only the new value `n + 1`, and the stored post now has
`likes = n + 1`; a Like call on an id that does not exist answers 404. -/
theorem like_spec (db : DB) (i : Nat) :
    (∀ p, findPost db i = some p →
      (likeHandler db i).1 = ⟨200, some (p.likes + 1)⟩ ∧
      findPost (likeHandler db i).2 i = some { p with likes := p.likes + 1 }) ∧
    (findPost db i = none → (likeHandler db i).1 = ⟨404, none⟩) := by
  constructor
  · intro p hp
    constructor
    · simp [likeHandler, hp]
    · have hup := findPost_updatePost db i
        (fun q => { q with likes := q.likes + 1 }) (fun _ => rfl)
      simp only [likeHandler, hp]
      rw [hup, hp]
      rfl
  · intro h
    simp [likeHandler, h]

/-- Witness for C4: one Like on a concrete post with 41 likes. -/
theorem like_spec_witness :
    findPost [likeDemoPost] 1 = some likeDemoPost ∧
    (likeHandler [likeDemoPost] 1).1 = ⟨200, some (likeDemoPost.likes + 1)⟩ :=
  ⟨by decide, ((like_spec [likeDemoPost] 1).1 likeDemoPost (by decide)).1⟩

/-- C7: on an id bound to no document, the comment handler dereferences the
null query result, so the catch block answers 500, while the like handler
answers 404. -/
theorem comment_missing_500 (db : DB) (i : Nat) (b : CommentBody) :
    findPost db i = none →
      (commentHandler db i b).1.status = 500 ∧ (likeHandler db i).1.status = 404 := by
  intro h
  simp [commentHandler, likeHandler, h]

/-- Witness for C7 at a concrete store and id. -/
theorem comment_missing_500_witness :
    findPost [commentDemoPost] 9 = none ∧
    (commentHandler [commentDemoPost] 9 ⟨some "hi", some "bob"⟩).1.status = 500 :=
  ⟨by decide, (comment_missing_500 [commentDemoPost] 9 ⟨some "hi", some "bob"⟩ (by decide)).1⟩

/-- C8: a Like call on a non-existent id answers 404 and leaves the store
exactly as it was — no document created, none mutated. -/
theorem like_missing_frame (db : DB) (i : Nat) :
    findPost db i = none →
      (likeHandler db i).1.status = 404 ∧ (likeHandler db i).2 = db := by
  intro h
  simp [likeHandler, h]

/-- Witness for C8 at a concrete store and missing id. -/
theorem like_missing_frame_witness :
    findPost [likeDemoPost] 2 = none ∧ (likeHandler [likeDemoPost] 2).2 = [likeDemoPost] :=
  ⟨by decide, (like_missing_frame [likeDemoPost] 2 (by decide)).2⟩

/-- C10: the comment handler validates nothing: on an existing post, a body
with neither `text` nor `user` still answers 200, appends the fieldless
entry to the post's comments, and returns that entry. -/
theorem comment_no_validation (db : DB) (i : Nat) (p : Post) :
    findPost db i = some p →
      (commentHandler db i ⟨none, none⟩).1 = ⟨200, some ⟨none, none⟩⟩ ∧
      findPost (commentHandler db i ⟨none, none⟩).2 i =
        some { p with comments := p.comments ++ [⟨none, none⟩] } := by
  intro h
  constructor
  · simp [commentHandler, h]
  · have hup := findPost_updatePost db i
      (fun q => { q with comments := q.comments ++ [(⟨none, none⟩ : Comment)] }) (fun _ => rfl)
    simp only [commentHandler, h]
    rw [hup, h]
    rfl

/-- Witness for C10: a fieldless comment on a concrete post. -/
theorem comment_no_validation_witness :
    findPost [commentDemoPost] 1 = some commentDemoPost ∧
    (commentHandler [commentDemoPost] 1 ⟨none, none⟩).1 = ⟨200, some ⟨none, none⟩⟩ :=
  ⟨by decide, (comment_no_validation [commentDemoPost] 1 commentDemoPost (by decide)).1⟩

/-- C2 (counterexample): the query text is applied as a regex pattern, not
as a literal substring: for the query `"."` (the any-character
metacharacter) the post titled "abc" is returned although neither its
title nor its content contains `"."` as a substring. -/
theorem search_regex_counterexample :
    searchPipeline "." [dotDemoPost] = [addEngagement dotDemoPost] ∧
    containsCI dotDemoPost.title "." = false ∧
    containsCI dotDemoPost.content "." = false := by
  decide

/-- C2 (amended): every search result passed the regex match stage and
carries `engagement = likes + number of comments`; the results are sorted
by descending engagement and number at most 5; since the query is applied
as a case-insensitive regex pattern, only when the query text is free of
regex metacharacters is the match literal — then each result's title or
content case-insensitively contains the query as a substring; and with
`P1` (likes 0, no comments) and `P2` (likes 5, one comment) both matching
`"a"`, `P2` (engagement 6) is ranked before `P1` (engagement 0). -/
theorem search_spec (q : String) (db : DB) :
    (∀ h ∈ searchPipeline q db,
      matchesSearch q h.post = true ∧
      (plainQuery q = true →
        (containsCI h.post.title q || containsCI h.post.content q) = true) ∧
      h.engagement = h.post.likes + (h.post.comments.length : Int)) ∧
    List.Sorted engagementGe (searchPipeline q db) ∧
    (searchPipeline q db).length ≤ 5 ∧
    searchPipeline "a" [searchDemoP1, searchDemoP2] =
      [addEngagement searchDemoP2, addEngagement searchDemoP1] ∧
    (addEngagement searchDemoP2).engagement = 6 ∧
    (addEngagement searchDemoP1).engagement = 0 := by
  refine ⟨?_, ?_, ?_, by decide, by decide, by decide⟩
  · intro h hmem
    have h1 : h ∈ List.insertionSort engagementGe
        ((db.filter (matchesSearch q)).map addEngagement) :=
      List.take_subset 5 _ hmem
    have h2 : h ∈ (db.filter (matchesSearch q)).map addEngagement :=
      (List.mem_insertionSort engagementGe).mp h1
    rcases List.mem_map.mp h2 with ⟨p, hp, he⟩
    have hm : matchesSearch q p = true := (List.mem_filter.mp hp).2
    subst he
    refine ⟨hm, ?_, rfl⟩
    intro hplain
    have hq := no_dot_of_plain hplain
    rw [matchesSearch, regexFound_no_dot q.toList _ hq, regexFound_no_dot q.toList _ hq] at hm
    exact hm
  · have hs : List.Sorted engagementGe
        (List.insertionSort engagementGe ((db.filter (matchesSearch q)).map addEngagement)) :=
      List.sorted_insertionSort engagementGe _
    exact List.Pairwise.sublist (List.take_sublist 5 _) hs
  · calc (searchPipeline q db).length = min 5 _ := List.length_take 5 _
      _ ≤ 5 := min_le_left _ _

/-- Witness for C2: the top-ranked concrete hit of the metacharacter-free
query `"a"` literally contains the query. -/
theorem search_spec_witness :
    addEngagement searchDemoP2 ∈ searchPipeline "a" [searchDemoP1, searchDemoP2] ∧
    plainQuery "a" = true ∧
    (containsCI (addEngagement searchDemoP2).post.title "a" ||
      containsCI (addEngagement searchDemoP2).post.content "a") = true := by
  refine ⟨by decide, by decide, ?_⟩
  exact (((search_spec "a" [searchDemoP1, searchDemoP2]).1
    (addEngagement searchDemoP2) (by decide)).2.1 (by decide))

/-- C3: on a non-empty collection the stats endpoint answers 200 with the
single aggregate record whose fields are the document count, the sum of
likes, the arithmetic mean of likes and the count of published documents
(concretely, likes 2, 4, 6 give totals 12, mean 4 and count 3); on an
empty collection it answers 200 with an empty object, not null or an
error. -/
theorem stats_spec (db : DB) :
    (db = [] → statsHandler db = (200, StatsData.emptyObj)) ∧
    (db ≠ [] →
      statsHandler db = (200, StatsData.record (statsFold db)) ∧
      (statsFold db).totalPosts = db.length ∧
      (statsFold db).totalLikes = (db.map Post.likes).sum ∧
      (statsFold db).avgLikes = (((db.map Post.likes).sum : Int) : ℚ) / (db.length : ℚ) ∧
      (statsFold db).publishedCount = (db.filter (fun p => p.published)).length) ∧
    (statsFold statsDemo).totalPosts = 3 ∧
    (statsFold statsDemo).totalLikes = 12 ∧
    (statsFold statsDemo).avgLikes = 4 := by
  refine ⟨?_, ?_, by decide, by decide, ?_⟩
  · intro h
    subst h
    rfl
  · intro h
    refine ⟨?_, ?_, ?_, ?_, ?_⟩
    · cases db with
      | nil => exact absurd rfl h
      | cons p t => rfl
    · simpa [statsFold] using foldl_count_nat db 0
    · simpa [statsFold] using foldl_likes_int db 0
    · simp only [statsFold]
      rw [foldl_likes_rat db 0, foldl_count_rat db 0]
      simp
    · simpa [statsFold] using foldl_published_count db 0
  · simp only [statsFold, statsDemo, List.foldl_cons, List.foldl_nil]
    norm_num

/-- Witness for C3: both the empty and a concrete non-empty store. -/
theorem stats_spec_witness :
    statsHandler [] = (200, StatsData.emptyObj) ∧
    statsHandler statsDemo = (200, StatsData.record (statsFold statsDemo)) :=
  ⟨(stats_spec []).1 rfl, ((stats_spec statsDemo).2.1 (by decide)).1⟩

/-- C5: a create body missing `title`, `content` or `author` is rejected
with status 400; a body carrying the three (valid) fields and nothing else
yields 201 and a document with the schema defaults `likes = 0`,
`published = false`, `comments = []`, `tags = []` and the generated id. -/
theorem create_spec (newId : Nat) (now : Int) (b : CreateBody) :
    ((b.title = none ∨ b.content = none ∨ b.author = none) →
      (createHandler newId now b).status = 400) ∧
    (∀ t c a, b = ⟨some t, some c, some a, none, none, none, none⟩ →
      trimStr t ≠ "" → (trimStr t).length ≤ 100 → c ≠ "" → a ≠ "" →
      createHandler newId now b = ⟨201, some
        { id := newId, title := trimStr t, content := c, author := a,
          tags := [], likes := 0, comments := [], published := false,
          createdAt := now }⟩) := by
  constructor
  · intro h
    rcases createPost_error_of_missing newId now b h with ⟨msg, hmsg⟩
    simp [createHandler, hmsg]
  · intro t c a hb ht hlen hc ha
    subst hb
    simp [createHandler, createPost, requiredOk, ht, hc, ha, Nat.not_lt.mpr hlen]

/-- Witness for C5: a missing title is rejected; a minimal valid body gets
the defaults. -/
theorem create_spec_witness :
    (createHandler 1 0 ⟨none, some "c", some "a", none, none, none, none⟩).status = 400 ∧
    createHandler 2 5 ⟨some "t", some "c", some "a", none, none, none, none⟩ = ⟨201, some
      { id := 2, title := trimStr "t", content := "c", author := "a",
        tags := [], likes := 0, comments := [], published := false,
        createdAt := 5 }⟩ :=
  ⟨(create_spec 1 0 _).1 (Or.inl rfl),
   (create_spec 2 5 _).2 "t" "c" "a" rfl (by decide) (by decide) (by decide) (by decide)⟩

/-- C6 (counterexample): with the `tag` parameter present but equal to the
empty string, the handler's truthiness test adds no filter, so a post
whose tags do not contain that value is still returned — refuting "if the
tag parameter is present the filter requires the post's tags to contain
that exact value". -/
theorem list_empty_tag_counterexample :
    listPosts ⟨some "", none, none⟩ [tagDemoPost] = [tagDemoPost] ∧
    tagDemoPost.tags.contains "" = false := by
  decide

/-- C6 (amended): if `tag` is present and non-empty every returned post's
tags contain that exact value (an empty `tag` is treated as absent by the
truthiness test); if `published` is present (with any text) every returned
post's `published` equals the comparison of that text with `"true"`; an
absent parameter adds no constraint; and the results are always sorted
descending by `createdAt`. -/
theorem list_spec (q : ListQuery) (db : DB) :
    (∀ p ∈ listPosts q db,
      (∀ t, q.tag = some t → t ≠ "" → p.tags.contains t = true) ∧
      (∀ s, q.published = some s → p.published = (s == "true"))) ∧
    List.Sorted createdAtGe (listPosts q db) ∧
    (q.tag = none → (buildFilter q).tags = none) ∧
    (q.published = none → (buildFilter q).published = none) := by
  refine ⟨?_, ?_, ?_, ?_⟩
  · intro p hp
    have h1 : p ∈ List.insertionSort createdAtGe (db.filter (matchesFilter (buildFilter q))) :=
      mem_applyLimit hp
    have h2 : p ∈ db.filter (matchesFilter (buildFilter q)) :=
      (List.mem_insertionSort createdAtGe).mp h1
    have hm := (List.mem_filter.mp h2).2
    rw [matchesFilter, Bool.and_eq_true] at hm
    constructor
    · intro t hqt hne
      have hbf : (buildFilter q).tags = some t := by simp [buildFilter, hqt, hne]
      have := hm.1
      rw [hbf] at this
      exact this
    · intro s hqs
      have hbf : (buildFilter q).published = some (s == "true") := by simp [buildFilter, hqs]
      have := hm.2
      rw [hbf] at this
      exact eq_of_beq this
  · have hs : List.Sorted createdAtGe
        (List.insertionSort createdAtGe (db.filter (matchesFilter (buildFilter q)))) :=
      List.sorted_insertionSort createdAtGe _
    exact List.Pairwise.sublist (applyLimit_sublist _ _) hs
  · intro h
    simp [buildFilter, h]
  · intro h
    simp [buildFilter, h]

/-- Witness for C6: a concrete filtered listing. -/
theorem list_spec_witness :
    listDemoPost ∈ listPosts ⟨some "x", some "true", none⟩ [listDemoPost] ∧
    listDemoPost.tags.contains "x" = true := by
  refine ⟨by decide, ?_⟩
  exact ((list_spec ⟨some "x", some "true", none⟩ [listDemoPost]).1
    listDemoPost (by decide)).1 "x" rfl (by decide)

/-- C9 (counterexample): Create accepts a client-supplied `likes`, and the
schema has no lower bound, so a create body with `likes = -5` succeeds
with 201 and stores a post with negative likes — refuting "no operation
(including Create with a client-supplied body) can produce a post with
negative likes". -/
theorem create_negative_likes_counterexample :
    (createHandler 1 0 negLikesBody).status = 201 ∧
    (createHandler 1 0 negLikesBody).data.map Post.likes = some (-5) := by
  decide

/-- C9 (amended): `likes` defaults to 0 when a create body does not supply
it and the only mutation is the Like +1, so any store reachable from a
store of non-negative-likes posts by requests whose create bodies never
supply a negative `likes` contains only posts with non-negative likes;
Create with a client-supplied negative `likes`, however, is accepted. -/
theorem likes_nonneg_spec (db : DB) (ops : List Op)
    (h0 : ∀ p ∈ db, 0 ≤ p.likes)
    (hops : ∀ nid now b, Op.create nid now b ∈ ops → ∀ v, b.likes = some v → 0 ≤ v) :
    ∀ p ∈ runOps db ops, 0 ≤ p.likes := by
  induction ops generalizing db with
  | nil => simpa [runOps] using h0
  | cons op rest ih =>
    have hstep : ∀ p ∈ applyOp db op, 0 ≤ p.likes := by
      intro p hp
      rcases likes_of_applyOp hp with ⟨s, hs, hl | hl⟩ | ⟨nid, now, b, hop, hl⟩
      · rw [hl]
        exact h0 s hs
      · rw [hl]
        have := h0 s hs
        omega
      · rw [hl]
        cases hbl : b.likes with
        | none => simp
        | some v =>
          simpa using hops nid now b (by rw [← hop]; exact List.mem_cons_self op rest) v hbl
    have hrw : runOps db (op :: rest) = runOps (applyOp db op) rest := rfl
    rw [hrw]
    exact ih (applyOp db op) hstep
      (fun nid now b hb v hv => hops nid now b (List.mem_cons_of_mem op hb) v hv)

/-- Witness for C9 (amended): a concrete trace — one valid create without
`likes`, one Like — ends with the expected non-negative post. -/
theorem likes_nonneg_spec_witness :
    demoTracePost ∈ runOps [] demoTrace ∧ 0 ≤ demoTracePost.likes := by
  refine ⟨by decide, ?_⟩
  refine likes_nonneg_spec [] demoTrace (by simp) ?_ demoTracePost (by decide)
  intro nid now b hb v hv
  simp [demoTrace, List.mem_cons] at hb
  rcases hb with ⟨_, _, rfl⟩
  simp at hv

end BlogApi
